import Mathlib

/-!
# Grendel: hand-off, drop accounting, memory governor, store health check, import

A shallow embedding of `helpers.go` (package `main`).  Every Go function that the
properties below talk about is a Lean function over an explicit world state; the
calls it makes into collaborators that live outside `helpers.go` (logger, channel,
atomic counter, runtime, storage engine, parser) are recorded, in program order,
in an effect trace.
-/

set_option exponentiation.threshold 5000

namespace Grendel

/-! ## Data model -/

/-- Go `generator.AddressType`: an integer-valued enumeration declared in package
`generator`; only its identity matters here. -/
abbrev AddressType := Nat

/-- Go `*btcec.PrivateKey`: key material, compared by identity only. -/
abbrev PrivateKey := Nat

/-- Go `WalletInfo`, the record `sendToChecker` builds (helpers.go:101-105). -/
structure WalletInfo where
  Address : String
  PrivateKey : PrivateKey
  AddrType : AddressType
  deriving DecidableEq, Repr

/-- Log levels of package `constants` that `helpers.go` uses. -/
inductive LogLevel where
  | LogInfo
  | LogWarn
  | LogError
  | LogVideo
  deriving DecidableEq, Repr

/-- A Go `error` value: a message, or `fmt.Errorf(format, inner)` wrapping `inner`
through the `%w` verb of `format`. -/
inductive GoError where
  | msg (text : String)
  | wrap (format : String) (inner : GoError)
  deriving DecidableEq, Repr

/-- A non-negative IEEE-754 binary64 value: `fin k` is the number `k · 2⁻¹⁰⁷⁴`.
Only non-negative values occur in `helpers.go` (the operands come from `uint64`
fields and positive constants), and every finite non-negative `float64` is a
whole multiple of `2⁻¹⁰⁷⁴`. -/
inductive F64 where
  | fin (k : Nat)
  | inf
  | nan
  deriving DecidableEq, Repr

/-- An argument handed to a formatted log call. -/
inductive LogArg where
  | str (s : String)
  | f64 (x : F64)
  deriving DecidableEq, Repr

/-- Calls that leave `helpers.go`, in the order the code performs them. -/
inductive Effect where
  /-- The `case ctx.addressChan <- wallet` taken at loop index `i`. -/
  | chanSend (i : Nat) (w : WalletInfo)
  /-- The `default` branch of the `select` taken at loop index `i` (buffer full). -/
  | chanFull (i : Nat)
  /-- Go `time.Sleep(d)`, `d` in nanoseconds. -/
  | sleep (ns : Nat)
  /-- Go `constants.TotalDroppedAddresses.Add(n)`. -/
  | dropAdd (n : Nat)
  /-- Go `logger.LogHeaderStatus(localLog, level, text)`. -/
  | logHeaderStatus (level : LogLevel) (text : String)
  /-- Go `logger.LogStatus(localLog, level, format, args...)`. -/
  | logStatus (level : LogLevel) (format : String) (args : List LogArg)
  /-- Go `logger.LogError(localLog, level, err, text)`. -/
  | logError (level : LogLevel) (err : GoError) (text : String)
  /-- The statement `go runtime.GC()`: a compaction request started on its own goroutine. -/
  | goGC
  /-- Go `debug.FreeOSMemory()`. -/
  | freeOSMemory
  /-- Go `parser.NewParser(localLog, bitcoinDir, dbPath, forceReparse)`. -/
  | newParser (bitcoinDir dbPath : String) (forceReparse : Bool)
  /-- Go `importParser.ImportAddressesFromFile(path)`. -/
  | importAddressesFromFile (path : String)
  /-- Go `p.DB.Has(key, nil)`. -/
  | dbHas (key : String)
  /-- Any write to the store (`Put`, `Delete`, batch write). -/
  | dbWrite (key : String)
  deriving DecidableEq, Repr

/-- Modelled from the spec: the declaration of `constants.TotalDroppedAddresses`
is in package `constants`, outside `helpers.go`, which only calls its method
`Add`.  The spec describes it as a process-wide, monotonically increasing
counter, zero at startup, updated by an atomic increment; it is a natural number
here, with no wrap-around, and `DropCounter.Add c n` is the value after the
method call `Add(n)` on a counter that held `c`. -/
def DropCounter.Add (c : Nat) (n : Nat) : Nat := c + n

/-- The part of `*AppContext` and of the process-wide state that `sendToChecker`
and `checkMemoryUsage` can reach.

* `addressChan` is the content of the buffered channel `ctx.addressChan`, oldest
  element first; `chanCap` is its capacity (fixed when the channel is made).  A
  non-blocking send succeeds exactly when fewer than `chanCap` records wait in it
  (a hand-over to a receiver that is already waiting on the empty buffer is the
  append followed by that receiver taking the record).
* `TotalDroppedAddresses` is the value of the atomic counter
  `constants.TotalDroppedAddresses`.
* `trace` is the effect trace. -/
structure World where
  addressChan : List WalletInfo
  chanCap : Nat
  TotalDroppedAddresses : Nat
  trace : List Effect
  deriving DecidableEq, Repr

/-- What the rest of the process does to the channel content between two steps of
one `sendToChecker` call: `env i` is applied just before the `select` of loop
index `i`.  The consumer receiving `k` records is `List.drop k`; other producers
sending is an append; a paused consumer is `id`.  Any function is allowed, so a
statement for every `ChanEnv` covers every behaviour of the buffer. -/
abbrev ChanEnv := Nat → List WalletInfo → List WalletInfo

/-- The environment in which nothing else touches the channel. -/
def quiet : ChanEnv := fun _ buf => buf

/-- The consumer receives `k i` records before attempt `i`. -/
def consumerRecv (k : Nat → Nat) : ChanEnv := fun i buf => buf.drop (k i)

/-! ## `sendToChecker` (helpers.go:100-120) -/

/-- Go `time.Millisecond`, in nanoseconds. -/
def Millisecond : Nat := 1000000

/-- The local `maxRetries := 3`. -/
def maxRetries : Nat := 3

/-- Body of `for i := 0; i < maxRetries; i++ { select { ... } }`, run over the
remaining loop indices.  The Boolean is `true` when the loop was left by the
`return` of the send case, `false` when it ran to the end. -/
def sendLoop (env : ChanEnv) (wallet : WalletInfo) : List Nat → World → World × Bool
  | [], s => (s, false)
  | i :: rest, s =>
    let buf := env i s.addressChan
    if buf.length < s.chanCap then
      ({ s with addressChan := buf ++ [wallet],
                trace := s.trace ++ [Effect.chanSend i wallet] }, true)
    else
      sendLoop env wallet rest
        { s with addressChan := buf,
                 trace := s.trace ++ [Effect.chanFull i, Effect.sleep (Millisecond * (i * 10))] }

/-- Go `sendToChecker(ctx, address, privateKey, addrType)`. -/
def sendToChecker (env : ChanEnv) (ctx : World) (address : String) (privateKey : PrivateKey)
    (addrType : AddressType) : World :=
  let wallet : WalletInfo := { Address := address, PrivateKey := privateKey, AddrType := addrType }
  match sendLoop env wallet (List.range maxRetries) ctx with
  | (s, true) => s
  | (s, false) =>
    { s with TotalDroppedAddresses := DropCounter.Add s.TotalDroppedAddresses 1,
             trace := s.trace ++ [Effect.dropAdd 1] }

/-- Go `handleChannelFull(ctx, address)` (helpers.go:122-127). -/
def handleChannelFull (ctx : World) (address : String) : World :=
  { ctx with trace := ctx.trace ++
      [Effect.logError LogLevel.LogError
        (GoError.msg ("failed to send address \x27" ++ address ++ "\x27 to checker - channel full"))
        "Address not sent due to full channel buffer"] }

/-! ## `float64` arithmetic used by `checkMemoryUsage` -/

/-- The multiple that represents `1.0`. -/
def F64.one : Nat := 2 ^ 1074

/-- One step of the binary search for the highest set bit: raise the candidate
position `acc` by `s` when `n` still reaches `2 ^ (acc + s)`. -/
def log2Step (n acc s : Nat) : Nat := if 2 ^ (acc + s) ≤ n then acc + s else acc

/-- Position of the highest set bit of `n` (for `1 ≤ n < 2 ^ 4096`), `0` for `n = 0`. -/
def log2Floor (n : Nat) : Nat :=
  [2048, 1024, 512, 256, 128, 64, 32, 16, 8, 4, 2, 1].foldl (log2Step n) 0

/-- Round the exact quotient `n / d` (in units of `2⁻¹⁰⁷⁴`, `d > 0`) to the nearest
binary64 value, ties to the even significand; values from `2¹⁰²⁴` on become `+Inf`.
Significands have 53 bits; below `2⁵³` units the grid is the unit itself, which
is exactly the subnormal range and the lowest binade. -/
def roundNearestEven (n d : Nat) : F64 :=
  let e := log2Floor (n / d) + 1 - 53
  let D := d * 2 ^ e
  let m := n / D
  let r := n % D
  let m1 := if 2 * r < D then m else if D < 2 * r then m + 1 else if m % 2 = 0 then m else m + 1
  if m1 * 2 ^ e < 2 ^ 2098 then F64.fin (m1 * 2 ^ e) else F64.inf

/-- Go conversion `float64(u)` of a `uint64`. -/
def F64.ofUint64 (u : Nat) : F64 := roundNearestEven (u * F64.one) 1

/-- Go `x / y` on non-negative `float64`. -/
def F64.div : F64 → F64 → F64
  | .fin a, .fin b =>
    if b = 0 then (if a = 0 then .nan else .inf) else roundNearestEven (a * F64.one) b
  | .fin _, .inf => .fin 0
  | .inf, .fin _ => .inf
  | _, _ => .nan

/-- Go `x * y` on non-negative `float64`. -/
def F64.mul : F64 → F64 → F64
  | .fin a, .fin b => roundNearestEven (a * b) F64.one
  | .fin a, .inf => if a = 0 then .nan else .inf
  | .inf, .fin b => if b = 0 then .nan else .inf
  | .inf, .inf => .inf
  | _, _ => .nan

/-- Go `x > y` on non-negative `float64` (false whenever a NaN is involved). -/
def F64.gt : F64 → F64 → Bool
  | .fin a, .fin b => decide (b < a)
  | .inf, .fin _ => true
  | _, _ => false

/-- Go `x == y` on non-negative `float64`. -/
def F64.eq : F64 → F64 → Bool
  | .fin a, .fin b => decide (a = b)
  | .inf, .inf => true
  | _, _ => false

/-! ## `checkMemoryUsage` (helpers.go:82-96) -/

/-- The two fields of gopsutil `mem.VirtualMemoryStat` that are read (`uint64`). -/
structure VirtualMemoryStat where
  Total : Nat
  Used : Nat
  deriving DecidableEq, Repr

/-- The local `usedPercentage := float64(v.Used) / float64(v.Total)`. -/
def usedPercentage (v : VirtualMemoryStat) : F64 :=
  F64.div (F64.ofUint64 v.Used) (F64.ofUint64 v.Total)

/-- The untyped constant `1024*1024*1024` as a `float64`. -/
def GiB : F64 := F64.fin (1024 * 1024 * 1024 * F64.one)

/-- The warning of helpers.go:88-92. -/
def memoryWarning (MemoryTarget : F64) (v : VirtualMemoryStat) : Effect :=
  Effect.logStatus LogLevel.LogWarn
    "Memory (%.1f%% > %.1f%% target) - %.1fGB/%.1fGB [Compacting]"
    [LogArg.f64 (F64.mul (usedPercentage v) (F64.fin (100 * F64.one))),
     LogArg.f64 (F64.mul MemoryTarget (F64.fin (100 * F64.one))),
     LogArg.f64 (F64.div (F64.ofUint64 v.Used) GiB),
     LogArg.f64 (F64.div (F64.ofUint64 v.Total) GiB)]

/-- Go `checkMemoryUsage(ctx)`.  `v` is the sample `mem.VirtualMemory()` returned,
`MemoryTarget` the constant `constants.MemoryTarget`. -/
def checkMemoryUsage (MemoryTarget : F64) (v : VirtualMemoryStat) (ctx : World) : World :=
  if F64.gt (usedPercentage v) MemoryTarget = true then
    { ctx with trace := ctx.trace ++
        [memoryWarning MemoryTarget v, Effect.goGC, Effect.freeOSMemory] }
  else ctx

/-! ## `verifyDatabase` (helpers.go:53-61) -/

/-- The storage engine behind `p.DB` (a goleveldb handle): the keys it holds and
the error, if any, that a read on this handle reports. -/
structure LevelDB where
  keys : List String
  fault : Option GoError
  deriving DecidableEq, Repr

/-- Engine call `db.Has(key, nil)`: `(found, err)`. -/
def LevelDB.Has (db : LevelDB) (key : String) : Bool × Option GoError :=
  match db.fault with
  | some e => (false, some e)
  | none => (decide (key ∈ db.keys), none)

/-- Go `parser.Parser`, reduced to the field `DB` (`nil` is `none`). -/
structure Parser where
  DB : Option LevelDB
  deriving DecidableEq, Repr

/-- Go `verifyDatabase(p)`: the returned error (`none` is `nil`), the parser after
the call, and the effects performed. -/
def verifyDatabase (p : Parser) : Option GoError × Parser × List Effect :=
  match p.DB with
  | none => (some (GoError.msg "database failed to initialize properly"), p, [])
  | some db =>
    match (db.Has "test").2 with
    | some err => (some (GoError.wrap "database access error: %w" err), p, [Effect.dbHas "test"])
    | none => (none, p, [Effect.dbHas "test"])

/-! ## `getBaseDir` and `handleImport` (helpers.go:26-51, 129-142) -/

/-- What `getBaseDir` reads from the operating system. -/
structure OsEnv where
  euid : Nat
  UserHomeDir : Except GoError String

/-- The package variables `baseDirOnce` (has it run?) and `cachedBaseDir`. -/
structure BaseDirState where
  onceDone : Bool
  cachedBaseDir : String
  deriving DecidableEq, Repr

/-- Go `getBaseDir()`.  `none` is the `log.Fatalf` exit of the process. -/
def getBaseDir (os : OsEnv) (st : BaseDirState) : Option (String × BaseDirState) :=
  if st.onceDone then some (st.cachedBaseDir, st)
  else if os.euid = 0 then some ("/root", { onceDone := true, cachedBaseDir := "/root" })
  else
    match os.UserHomeDir with
    | .ok homeDir => some (homeDir, { onceDone := true, cachedBaseDir := homeDir })
    | .error _ => none

/-- The collaborators of `handleImport` that are declared outside `helpers.go`:
`parser.NewParser` (arguments after the logger), the method
`ImportAddressesFromFile`, the constant `constants.AddressDBPath` and
`filepath.Join` on two elements. -/
structure ImportDeps where
  NewParser : String → String → Bool → Except GoError Parser
  ImportAddressesFromFile : Parser → String → Option GoError
  AddressDBPath : String
  Join : String → String → String

/-- How a call ends: the process exits inside it, or it returns an `error`. -/
inductive Outcome where
  | exited
  | returned (err : Option GoError)
  deriving DecidableEq, Repr

/-- Go `handleImport(localLog)`: outcome and effects performed, in order. -/
def handleImport (deps : ImportDeps) (os : OsEnv) (st : BaseDirState) : Outcome × List Effect :=
  let t0 := [Effect.logHeaderStatus LogLevel.LogInfo "Starting Address Import"]
  match getBaseDir os st with
  | none => (Outcome.exited, t0)
  | some (base1, st1) =>
    match getBaseDir os st1 with
    | none => (Outcome.exited, t0)
    | some (base2, _) =>
      let bitcoinDir := deps.Join base1 ".bitcoin"
      let dbPath := deps.Join base2 deps.AddressDBPath
      let t1 := t0 ++ [Effect.newParser bitcoinDir dbPath true]
      match deps.NewParser bitcoinDir dbPath true with
      | .error err =>
        (Outcome.returned (some (GoError.wrap "failed to initialize parser for import: %w" err)), t1)
      | .ok importParser =>
        let importPath := "./config/addresses.txt.gz"
        let t2 := t1 ++ [Effect.logStatus LogLevel.LogInfo "Importing addresses from: %s"
                          [LogArg.str importPath],
                         Effect.importAddressesFromFile importPath]
        match deps.ImportAddressesFromFile importParser importPath with
        | some err => (Outcome.returned (some (GoError.wrap "failed to import addresses: %w" err)), t2)
        | none =>
          (Outcome.returned none,
            t2 ++ [Effect.logStatus LogLevel.LogInfo "Address import completed successfully" []])


/-! ## Vocabulary of the properties -/

/-- The channel content that the `select` of loop index `i` finds, when every
earlier iteration took the `default` branch: only the environment has acted. -/
def seen (env : ChanEnv) (buf : List WalletInfo) : Nat → List WalletInfo
  | 0 => env 0 buf
  | i + 1 => env (i + 1) (seen env buf i)

/-- The attempt of loop index `i` finds room in the buffer. -/
def roomAt (env : ChanEnv) (ctx : World) (i : Nat) : Bool :=
  decide ((seen env ctx.addressChan i).length < ctx.chanCap)

/-- The first loop index whose attempt finds room, if any of the `maxRetries` does. -/
def firstRoom (env : ChanEnv) (ctx : World) : Option Nat :=
  (List.range maxRetries).find? (roomAt env ctx)

/-- All `maxRetries` non-blocking attempts find the buffer full. -/
def allFull (env : ChanEnv) (ctx : World) : Prop :=
  ∀ i, i < maxRetries → roomAt env ctx i = false

instance (env : ChanEnv) (ctx : World) : Decidable (allFull env ctx) := by
  unfold allFull; infer_instance

/-- Effects of `k` failed iterations `0 .. k-1`: full buffer, then the back-off sleep. -/
def failedAttempts (k : Nat) : List Effect :=
  (List.range k).flatMap fun i => [Effect.chanFull i, Effect.sleep (Millisecond * (i * 10))]

/-- The effects one call of `sendToChecker` adds to the trace. -/
def callEffects (env : ChanEnv) (ctx : World) (address : String) (privateKey : PrivateKey)
    (addrType : AddressType) : List Effect :=
  (sendToChecker env ctx address privateKey addrType).trace.drop ctx.trace.length

/-- Amounts passed to `TotalDroppedAddresses.Add`, in order. -/
def dropAdds : List Effect → List Nat
  | [] => []
  | Effect.dropAdd n :: t => n :: dropAdds t
  | _ :: t => dropAdds t

/-- Durations (ns) passed to `time.Sleep`, in order. -/
def sleeps : List Effect → List Nat
  | [] => []
  | Effect.sleep ns :: t => ns :: sleeps t
  | _ :: t => sleeps t

/-- Records successfully sent on the channel, in order. -/
def sends : List Effect → List WalletInfo
  | [] => []
  | Effect.chanSend _ w :: t => w :: sends t
  | _ :: t => sends t

/-- Number of `select` attempts (successful or not). -/
def attempts : List Effect → Nat
  | [] => 0
  | Effect.chanSend _ _ :: t => attempts t + 1
  | Effect.chanFull _ :: t => attempts t + 1
  | _ :: t => attempts t

/-- The effect is a log event of package `logger`. -/
def Effect.isLog : Effect → Bool
  | Effect.logHeaderStatus _ _ => true
  | Effect.logStatus _ _ _ => true
  | Effect.logError _ _ _ => true
  | _ => false

/-- Sequential calls of `sendToChecker`, each with its own environment. -/
def runCalls : List (ChanEnv × WalletInfo) → World → World
  | [], s => s
  | (env, w) :: rest, s =>
    runCalls rest (sendToChecker env s w.Address w.PrivateKey w.AddrType)

/-- For each call of a sequence, whether its candidate was handed off (`true`)
or dropped (`false`). -/
def outcomes : List (ChanEnv × WalletInfo) → World → List Bool
  | [], _ => []
  | (env, w) :: rest, s =>
    (firstRoom env s).isSome ::
      outcomes rest (sendToChecker env s w.Address w.PrivateKey w.AddrType)

/-- The candidates of the calls whose outcome flag is `true`, in call order. -/
def keepDelivered : List (ChanEnv × WalletInfo) → List Bool → List WalletInfo
  | (_, w) :: rest, true :: bs => w :: keepDelivered rest bs
  | _ :: rest, false :: bs => keepDelivered rest bs
  | _, _ => []

/-- A world with an empty buffer of capacity `cap`, a zero counter, no history. -/
def initWorld (cap : Nat) : World :=
  { addressChan := [], chanCap := cap, TotalDroppedAddresses := 0, trace := [] }

/-- Three calls against a buffer of capacity 1: the first finds it empty; during
the second the consumer takes the waiting record only just before the third
attempt; the third call finds the buffer full throughout. -/
def retryScenario : List (ChanEnv × WalletInfo) :=
  [(quiet, ⟨"1First", 11, 0⟩),
   (consumerRecv (fun i => if i = 2 then 1 else 0), ⟨"1Second", 12, 1⟩),
   (quiet, ⟨"1Third", 13, 0⟩)]

/-- Five candidates, submitted in this order. -/
def fiveCandidates : List WalletInfo :=
  [⟨"1A", 1, 0⟩, ⟨"1B", 2, 0⟩, ⟨"3C", 3, 1⟩, ⟨"bc1D", 4, 2⟩, ⟨"1E", 5, 0⟩]

/-- Number of compaction requests (`go runtime.GC()`) in a trace. -/
def compactions (t : List Effect) : Nat := t.count Effect.goGC

/-- Number of `debug.FreeOSMemory()` calls in a trace. -/
def releases (t : List Effect) : Nat := t.count Effect.freeOSMemory

/-- Number of `LogWarn` status messages in a trace. -/
def warnings : List Effect → Nat
  | [] => 0
  | Effect.logStatus LogLevel.LogWarn _ _ :: t => warnings t + 1
  | _ :: t => warnings t

/-- The effects one call of `checkMemoryUsage` adds to the trace. -/
def memoryEffects (MemoryTarget : F64) (v : VirtualMemoryStat) (ctx : World) : List Effect :=
  (checkMemoryUsage MemoryTarget v ctx).trace.drop ctx.trace.length

/-- Keys looked up with `Has`, in order. -/
def lookups : List Effect → List String
  | [] => []
  | Effect.dbHas key :: t => key :: lookups t
  | _ :: t => lookups t

/-- Keys written to the store, in order. -/
def writes : List Effect → List String
  | [] => []
  | Effect.dbWrite key :: t => key :: writes t
  | _ :: t => writes t

/-- Arguments of the `parser.NewParser` calls, in order. -/
def parserCalls : List Effect → List (String × String × Bool)
  | [] => []
  | Effect.newParser bitcoinDir dbPath forceReparse :: t =>
    (bitcoinDir, dbPath, forceReparse) :: parserCalls t
  | _ :: t => parserCalls t

/-- Paths handed to `ImportAddressesFromFile`, in order. -/
def fileImports : List Effect → List String
  | [] => []
  | Effect.importAddressesFromFile path :: t => path :: fileImports t
  | _ :: t => fileImports t

/-! ## Facts on the `float64` model -/

theorem log2Step_spec (n acc s t : Nat) (ht : t = s + s) (h1 : 2 ^ acc ≤ n)
    (h2 : n < 2 ^ (acc + t)) :
    2 ^ log2Step n acc s ≤ n ∧ n < 2 ^ (log2Step n acc s + s) := by
  subst ht
  unfold log2Step
  by_cases h : 2 ^ (acc + s) ≤ n
  · rw [if_pos h]
    exact ⟨h, by rwa [Nat.add_assoc]⟩
  · rw [if_neg h]
    exact ⟨h1, Nat.lt_of_not_le h⟩

theorem log2Floor_zero : log2Floor 0 = 0 := by decide

theorem log2Floor_eq (n : Nat) :
    log2Floor n =
      log2Step n (log2Step n (log2Step n (log2Step n (log2Step n (log2Step n (log2Step n
        (log2Step n (log2Step n (log2Step n (log2Step n (log2Step n 0 2048) 1024) 512) 256)
          128) 64) 32) 16) 8) 4) 2) 1 := by
  simp only [log2Floor, List.foldl]

/-- Specification of `log2Floor`: it is the position of the highest set bit. -/
theorem log2Floor_spec (n : Nat) (h0 : 0 < n) (hn : n < 2 ^ 4096) :
    2 ^ log2Floor n ≤ n ∧ n < 2 ^ (log2Floor n + 1) := by
  have a0 : 2 ^ 0 ≤ n ∧ n < 2 ^ (0 + 4096) := ⟨h0, by rwa [Nat.zero_add]⟩
  have a1 := log2Step_spec n _ 2048 4096 rfl a0.1 a0.2
  have a2 := log2Step_spec n _ 1024 2048 rfl a1.1 a1.2
  have a3 := log2Step_spec n _ 512 1024 rfl a2.1 a2.2
  have a4 := log2Step_spec n _ 256 512 rfl a3.1 a3.2
  have a5 := log2Step_spec n _ 128 256 rfl a4.1 a4.2
  have a6 := log2Step_spec n _ 64 128 rfl a5.1 a5.2
  have a7 := log2Step_spec n _ 32 64 rfl a6.1 a6.2
  have a8 := log2Step_spec n _ 16 32 rfl a7.1 a7.2
  have a9 := log2Step_spec n _ 8 16 rfl a8.1 a8.2
  have a10 := log2Step_spec n _ 4 8 rfl a9.1 a9.2
  have a11 := log2Step_spec n _ 2 4 rfl a10.1 a10.2
  have a12 := log2Step_spec n _ 1 2 rfl a11.1 a11.2
  rw [log2Floor_eq]
  exact a12

/-- The arithmetic core of rounding: with `D = d * 2 ^ e` the spacing of the
grid around `n / d`, every binary64 grid point `M * 2 ^ E` that is at least
`n / d` is at least the grid neighbour above `n / d`. -/
theorem grid_above (n d e M E : Nat) (hd : 0 < d)
    (he : e = 0 ∨ 2 ^ (e + 52) * d ≤ n) (hM : M < 2 ^ 53)
    (h : n ≤ M * 2 ^ E * d) (hr : n % (d * 2 ^ e) ≠ 0) :
    (n / (d * 2 ^ e) + 1) * 2 ^ e ≤ M * 2 ^ E := by
  have hD : 0 < d * 2 ^ e := Nat.mul_pos hd (Nat.two_pow_pos _)
  have hnm : d * 2 ^ e * (n / (d * 2 ^ e)) + n % (d * 2 ^ e) = n := Nat.div_add_mod n _
  have hlt : d * (2 ^ e * (n / (d * 2 ^ e))) < d * (M * 2 ^ E) := by
    have h1 : d * 2 ^ e * (n / (d * 2 ^ e)) < n := by
      have := Nat.pos_of_ne_zero hr
      omega
    calc d * (2 ^ e * (n / (d * 2 ^ e))) = d * 2 ^ e * (n / (d * 2 ^ e)) := by
          rw [Nat.mul_assoc]
      _ < n := h1
      _ ≤ M * 2 ^ E * d := h
      _ = d * (M * 2 ^ E) := Nat.mul_comm _ _
  have hgt : 2 ^ e * (n / (d * 2 ^ e)) < M * 2 ^ E := Nat.lt_of_mul_lt_mul_left hlt
  rcases he with he | he
  · subst he
    simp only [pow_zero, Nat.mul_one, Nat.one_mul] at hgt ⊢
    exact hgt
  · have hm : 2 ^ 52 ≤ n / (d * 2 ^ e) := by
      rw [Nat.le_div_iff_mul_le hD]
      calc 2 ^ 52 * (d * 2 ^ e) = 2 ^ (e + 52) * d := by ring
        _ ≤ n := he
    have hEe : e ≤ E := by
      by_contra hcon
      have hE1 : E + 1 ≤ e := by omega
      have h1 : M * 2 ^ E < 2 ^ 53 * 2 ^ E :=
        Nat.mul_lt_mul_of_pos_right hM (Nat.two_pow_pos _)
      have h2 : 2 ^ 53 * 2 ^ E ≤ 2 ^ e * 2 ^ 52 := by
        calc 2 ^ 53 * 2 ^ E = 2 ^ (E + 1) * 2 ^ 52 := by ring
          _ ≤ 2 ^ e * 2 ^ 52 :=
            Nat.mul_le_mul_right _ (Nat.pow_le_pow_right (by decide) hE1)
      have h3 : 2 ^ e * 2 ^ 52 ≤ 2 ^ e * (n / (d * 2 ^ e)) := Nat.mul_le_mul_left _ hm
      omega
    obtain ⟨c, rfl⟩ := Nat.exists_eq_add_of_le hEe
    have hg' : M * 2 ^ (e + c) = 2 ^ e * (M * 2 ^ c) := by ring
    rw [hg'] at hgt ⊢
    have hlt2 : n / (d * 2 ^ e) < M * 2 ^ c := Nat.lt_of_mul_lt_mul_left hgt
    calc (n / (d * 2 ^ e) + 1) * 2 ^ e = 2 ^ e * (n / (d * 2 ^ e) + 1) := Nat.mul_comm _ _
      _ ≤ 2 ^ e * (M * 2 ^ c) := Nat.mul_le_mul_left _ hlt2

/-- Mirror image of `grid_above`: every binary64 grid point `M * 2 ^ E` that is at
most `n / d` is at most the grid neighbour below `n / d`. -/
theorem grid_below (n d e M E : Nat) (hd : 0 < d)
    (he : e = 0 ∨ 2 ^ (e + 52) * d ≤ n) (hM : M < 2 ^ 53)
    (h : M * 2 ^ E * d ≤ n) :
    M * 2 ^ E ≤ n / (d * 2 ^ e) * 2 ^ e := by
  have hD : 0 < d * 2 ^ e := Nat.mul_pos hd (Nat.two_pow_pos _)
  by_cases hEe : e ≤ E
  · obtain ⟨c, rfl⟩ := Nat.exists_eq_add_of_le hEe
    have hg' : M * 2 ^ (e + c) = M * 2 ^ c * 2 ^ e := by ring
    rw [hg']
    refine Nat.mul_le_mul_right _ ?_
    rw [Nat.le_div_iff_mul_le hD]
    calc M * 2 ^ c * (d * 2 ^ e) = M * 2 ^ (e + c) * d := by ring
      _ ≤ n := h
  · rcases he with he | he
    · omega
    · have hm : 2 ^ 52 ≤ n / (d * 2 ^ e) := by
        rw [Nat.le_div_iff_mul_le hD]
        calc 2 ^ 52 * (d * 2 ^ e) = 2 ^ (e + 52) * d := by ring
          _ ≤ n := he
      have hE1 : E + 1 ≤ e := by omega
      calc M * 2 ^ E ≤ 2 ^ 53 * 2 ^ E := Nat.mul_le_mul_right _ (Nat.le_of_lt hM)
        _ = 2 ^ 52 * 2 ^ (E + 1) := by ring
        _ ≤ 2 ^ 52 * 2 ^ e :=
          Nat.mul_le_mul_left _ (Nat.pow_le_pow_right (by decide) hE1)
        _ ≤ n / (d * 2 ^ e) * 2 ^ e := Nat.mul_le_mul_right _ hm

/-- The exponent `roundNearestEven` picks leaves a 53-bit significand. -/
theorem roundExponent_spec (n d : Nat) (hd : 0 < d) (hn : n < 2 ^ 4096 * d) :
    log2Floor (n / d) + 1 - 53 = 0 ∨ 2 ^ (log2Floor (n / d) + 1 - 53 + 52) * d ≤ n := by
  by_cases he : log2Floor (n / d) + 1 - 53 = 0
  · exact Or.inl he
  · right
    have hq0 : 0 < n / d := by
      rcases Nat.eq_zero_or_pos (n / d) with h0 | h0
      · rw [h0, log2Floor_zero] at he
        exact absurd rfl he
      · exact h0
    have hq : n / d < 2 ^ 4096 := (Nat.div_lt_iff_lt_mul hd).2 hn
    have hs := (log2Floor_spec (n / d) hq0 hq).1
    have hexp : log2Floor (n / d) + 1 - 53 + 52 = log2Floor (n / d) := by omega
    rw [hexp]
    exact (Nat.le_div_iff_mul_le hd).1 hs

/-- The value `roundNearestEven` returns is the grid neighbour below `n / d` or,
only when `n / d` is off the grid, the one above. -/
theorem roundNearestEven_shape (n d : Nat) (hd : 0 < d) :
    ∃ m1, (m1 = n / (d * 2 ^ (log2Floor (n / d) + 1 - 53)) ∨
          (m1 = n / (d * 2 ^ (log2Floor (n / d) + 1 - 53)) + 1 ∧
            n % (d * 2 ^ (log2Floor (n / d) + 1 - 53)) ≠ 0)) ∧
      roundNearestEven n d =
        if m1 * 2 ^ (log2Floor (n / d) + 1 - 53) < 2 ^ 2098 then
          F64.fin (m1 * 2 ^ (log2Floor (n / d) + 1 - 53))
        else F64.inf := by
  have hD : 0 < d * 2 ^ (log2Floor (n / d) + 1 - 53) := Nat.mul_pos hd (Nat.two_pow_pos _)
  unfold roundNearestEven
  dsimp only
  by_cases h1 : 2 * (n % (d * 2 ^ (log2Floor (n / d) + 1 - 53))) <
      d * 2 ^ (log2Floor (n / d) + 1 - 53)
  · exact ⟨_, Or.inl rfl, by rw [if_pos h1]⟩
  · rw [if_neg h1]
    have hr : n % (d * 2 ^ (log2Floor (n / d) + 1 - 53)) ≠ 0 := by
      intro h0
      rw [h0] at h1
      exact h1 hD
    by_cases h2 : d * 2 ^ (log2Floor (n / d) + 1 - 53) <
        2 * (n % (d * 2 ^ (log2Floor (n / d) + 1 - 53)))
    · exact ⟨_, Or.inr ⟨rfl, hr⟩, by rw [if_pos h2]⟩
    · rw [if_neg h2]
      by_cases h3 : n / (d * 2 ^ (log2Floor (n / d) + 1 - 53)) % 2 = 0
      · exact ⟨_, Or.inl rfl, by rw [if_pos h3]⟩
      · exact ⟨_, Or.inr ⟨rfl, hr⟩, by rw [if_neg h3]⟩

/-- Rounding never moves a quotient across a binary64 value from below: if
`n / d ≤ g` for a finite binary64 value `g = M * 2 ^ E` (in units of `2⁻¹⁰⁷⁴`),
the rounded quotient is finite and at most `g`. -/
theorem roundNearestEven_le (n d M E : Nat) (hd : 0 < d) (hn : n < 2 ^ 4096 * d)
    (hM : M < 2 ^ 53) (hg : M * 2 ^ E < 2 ^ 2098) (h : n ≤ M * 2 ^ E * d) :
    ∃ k, roundNearestEven n d = F64.fin k ∧ k ≤ M * 2 ^ E := by
  obtain ⟨m1, hm1, hres⟩ := roundNearestEven_shape n d hd
  have he := roundExponent_spec n d hd hn
  have hD : 0 < d * 2 ^ (log2Floor (n / d) + 1 - 53) := Nat.mul_pos hd (Nat.two_pow_pos _)
  have hle : m1 * 2 ^ (log2Floor (n / d) + 1 - 53) ≤ M * 2 ^ E := by
    rcases hm1 with rfl | ⟨rfl, hr⟩
    · have h1 : d * (n / (d * 2 ^ (log2Floor (n / d) + 1 - 53)) *
          2 ^ (log2Floor (n / d) + 1 - 53)) ≤ d * (M * 2 ^ E) := by
        calc d * (n / (d * 2 ^ (log2Floor (n / d) + 1 - 53)) *
              2 ^ (log2Floor (n / d) + 1 - 53))
            = n / (d * 2 ^ (log2Floor (n / d) + 1 - 53)) *
                (d * 2 ^ (log2Floor (n / d) + 1 - 53)) := by ring
          _ ≤ n := Nat.div_mul_le_self _ _
          _ ≤ M * 2 ^ E * d := h
          _ = d * (M * 2 ^ E) := Nat.mul_comm _ _
      exact Nat.le_of_mul_le_mul_left h1 hd
    · exact grid_above n d _ M E hd he hM h hr
  refine ⟨_, ?_, hle⟩
  rw [hres, if_pos (Nat.lt_of_le_of_lt hle hg)]

/-- Rounding never moves a quotient across a binary64 value from above: if
`g ≤ n / d` for a binary64 value `g = M * 2 ^ E`, the rounded quotient is `+Inf`
or a finite value that is at least `g`. -/
theorem roundNearestEven_ge (n d M E : Nat) (hd : 0 < d) (hn : n < 2 ^ 4096 * d)
    (hM : M < 2 ^ 53) (h : M * 2 ^ E * d ≤ n) :
    roundNearestEven n d = F64.inf ∨
      ∃ k, roundNearestEven n d = F64.fin k ∧ M * 2 ^ E ≤ k := by
  obtain ⟨m1, hm1, hres⟩ := roundNearestEven_shape n d hd
  have he := roundExponent_spec n d hd hn
  have hlow := grid_below n d _ M E hd he hM h
  have hle : M * 2 ^ E ≤ m1 * 2 ^ (log2Floor (n / d) + 1 - 53) := by
    rcases hm1 with rfl | ⟨rfl, -⟩
    · exact hlow
    · exact Nat.le_trans hlow (Nat.mul_le_mul_right _ (Nat.le_succ _))
  by_cases hfin : m1 * 2 ^ (log2Floor (n / d) + 1 - 53) < 2 ^ 2098
  · right
    exact ⟨_, by rw [hres, if_pos hfin], hle⟩
  · left
    rw [hres, if_neg hfin]

/-- A `uint64` below `2 ^ 53` converts to `float64` without rounding. -/
theorem ofUint64_exact (u : Nat) (hu : u < 2 ^ 53) : F64.ofUint64 u = F64.fin (u * F64.one) := by
  have hone : F64.one = 2 ^ 1074 := rfl
  have hlt : u * 2 ^ 1074 < 2 ^ 2098 := by
    calc u * 2 ^ 1074 < 2 ^ 53 * 2 ^ 1074 := Nat.mul_lt_mul_of_pos_right hu (Nat.two_pow_pos _)
      _ = 2 ^ 1127 := by rw [← pow_add]
      _ ≤ 2 ^ 2098 := Nat.pow_le_pow_right (by decide) (by decide)
  have hn : u * 2 ^ 1074 < 2 ^ 4096 * 1 := by
    rw [Nat.mul_one]
    exact Nat.lt_of_lt_of_le hlt (Nat.pow_le_pow_right (by decide) (by decide))
  unfold F64.ofUint64
  rw [hone]
  obtain ⟨k, hk, hle⟩ := roundNearestEven_le (u * 2 ^ 1074) 1 u 1074 (by decide) hn hu hlt
    (by rw [Nat.mul_one])
  rcases roundNearestEven_ge (u * 2 ^ 1074) 1 u 1074 (by decide) hn hu (by rw [Nat.mul_one])
    with hinf | ⟨k2, hk2, hge⟩
  · rw [hk] at hinf
    cases hinf
  · rw [hk] at hk2
    cases hk2
    rw [hk, Nat.le_antisymm hle hge]

/-- The quotient `usedPercentage` computes, for a sample whose fields convert
exactly (below `2 ^ 53` bytes): one rounding of the exact quotient. -/
theorem usedPercentage_eq (v : VirtualMemoryStat) (hU : v.Used < 2 ^ 53)
    (hT0 : 0 < v.Total) (hT : v.Total < 2 ^ 53) :
    usedPercentage v =
      roundNearestEven (v.Used * F64.one * F64.one) (v.Total * F64.one) := by
  have hone : 0 < F64.one := Nat.two_pow_pos _
  have hd : v.Total * F64.one ≠ 0 := Nat.ne_of_gt (Nat.mul_pos hT0 hone)
  unfold usedPercentage
  rw [ofUint64_exact _ hU, ofUint64_exact _ hT]
  simp only [F64.div, hd, if_false]

theorem usedPercentage_range (v : VirtualMemoryStat) (hU : v.Used < 2 ^ 53)
    (hT0 : 0 < v.Total) :
    v.Used * F64.one * F64.one < 2 ^ 4096 * (v.Total * F64.one) := by
  have hone : F64.one = 2 ^ 1074 := rfl
  rw [hone]
  calc v.Used * 2 ^ 1074 * 2 ^ 1074
      < 2 ^ 53 * 2 ^ 1074 * 2 ^ 1074 :=
        Nat.mul_lt_mul_of_pos_right
          (Nat.mul_lt_mul_of_pos_right hU (Nat.two_pow_pos _)) (Nat.two_pow_pos _)
    _ = 2 ^ 2201 := by rw [← pow_add, ← pow_add]
    _ ≤ 2 ^ 4096 := Nat.pow_le_pow_right (by decide) (by decide)
    _ = 2 ^ 4096 * 1 := (Nat.mul_one _).symm
    _ ≤ 2 ^ 4096 * (v.Total * 2 ^ 1074) :=
      Nat.mul_le_mul_left _ (Nat.mul_pos hT0 (Nat.two_pow_pos _))

/-- Exact reading, lower side: when the exact ratio `Used / Total` is at most the
threshold (a finite binary64 value `M * 2 ^ E` in units of `2⁻¹⁰⁷⁴`), the
comparison of `checkMemoryUsage` is false and the call changes nothing. -/
theorem checkMemoryUsage_exact_le (v : VirtualMemoryStat) (M E : Nat) (ctx : World)
    (hU : v.Used < 2 ^ 53) (hT0 : 0 < v.Total) (hT : v.Total < 2 ^ 53)
    (hM : M < 2 ^ 53) (hg : M * 2 ^ E < 2 ^ 2098)
    (h : v.Used * F64.one ≤ M * 2 ^ E * v.Total) :
    F64.gt (usedPercentage v) (F64.fin (M * 2 ^ E)) = false ∧
      checkMemoryUsage (F64.fin (M * 2 ^ E)) v ctx = ctx := by
  have hone : 0 < F64.one := Nat.two_pow_pos _
  have hle : v.Used * F64.one * F64.one ≤ M * 2 ^ E * (v.Total * F64.one) := by
    calc v.Used * F64.one * F64.one ≤ M * 2 ^ E * v.Total * F64.one :=
          Nat.mul_le_mul_right _ h
      _ = M * 2 ^ E * (v.Total * F64.one) := Nat.mul_assoc _ _ _
  obtain ⟨k, hk, hkle⟩ := roundNearestEven_le _ _ M E (Nat.mul_pos hT0 hone)
    (usedPercentage_range v hU hT0) hM hg hle
  have hgt : F64.gt (usedPercentage v) (F64.fin (M * 2 ^ E)) = false := by
    rw [usedPercentage_eq v hU hT0 hT, hk]
    simp only [F64.gt, decide_eq_false_iff_not, Nat.not_lt]
    exact hkle
  refine ⟨hgt, ?_⟩
  unfold checkMemoryUsage
  rw [hgt]
  simp

/-- Exact reading, upper side: when the exact ratio `Used / Total` reaches a
binary64 value `M' * 2 ^ E'` that lies above the threshold `k`, the comparison
of `checkMemoryUsage` is true: warning, compaction request and release follow. -/
theorem checkMemoryUsage_exact_gt (v : VirtualMemoryStat) (k M' E' : Nat) (ctx : World)
    (hU : v.Used < 2 ^ 53) (hT0 : 0 < v.Total) (hT : v.Total < 2 ^ 53)
    (hM : M' < 2 ^ 53) (hk : k < M' * 2 ^ E')
    (h : M' * 2 ^ E' * v.Total ≤ v.Used * F64.one) :
    F64.gt (usedPercentage v) (F64.fin k) = true ∧
      (checkMemoryUsage (F64.fin k) v ctx).trace =
        ctx.trace ++ [memoryWarning (F64.fin k) v, Effect.goGC, Effect.freeOSMemory] := by
  have hone : 0 < F64.one := Nat.two_pow_pos _
  have hge : M' * 2 ^ E' * (v.Total * F64.one) ≤ v.Used * F64.one * F64.one := by
    calc M' * 2 ^ E' * (v.Total * F64.one) = M' * 2 ^ E' * v.Total * F64.one :=
          (Nat.mul_assoc _ _ _).symm
      _ ≤ v.Used * F64.one * F64.one := Nat.mul_le_mul_right _ h
  have hgt : F64.gt (usedPercentage v) (F64.fin k) = true := by
    rw [usedPercentage_eq v hU hT0 hT]
    rcases roundNearestEven_ge _ _ M' E' (Nat.mul_pos hT0 hone)
      (usedPercentage_range v hU hT0) hM hge with hinf | ⟨k2, hk2, hk2ge⟩
    · rw [hinf]; rfl
    · rw [hk2]
      simp only [F64.gt, decide_eq_true_eq]
      exact Nat.lt_of_lt_of_le hk hk2ge
  refine ⟨hgt, ?_⟩
  unfold checkMemoryUsage
  rw [hgt]
  simp

/-- Instance of `checkMemoryUsage_exact_le` at 4 GiB used of 16 GiB with threshold 0.5. -/
theorem checkMemoryUsage_exact_le_instance :
    F64.gt (usedPercentage ⟨17179869184, 4294967296⟩) (F64.fin (1 * 2 ^ 1073)) = false ∧
      checkMemoryUsage (F64.fin (1 * 2 ^ 1073)) ⟨17179869184, 4294967296⟩ (initWorld 4) =
        initWorld 4 :=
  checkMemoryUsage_exact_le ⟨17179869184, 4294967296⟩ 1 1073 (initWorld 4)
    (by decide) (by decide) (by decide) (by decide) (by decide) (by decide)

/-- Instance of `checkMemoryUsage_exact_gt` at 12 GiB used of 16 GiB with threshold 0.5: the
exact ratio reaches the binary64 value 0.75, which lies above the threshold. -/
theorem checkMemoryUsage_exact_gt_instance :
    F64.gt (usedPercentage ⟨17179869184, 12884901888⟩) (F64.fin (2 ^ 1073)) = true ∧
      (checkMemoryUsage (F64.fin (2 ^ 1073)) ⟨17179869184, 12884901888⟩ (initWorld 4)).trace =
        (initWorld 4).trace ++
          [memoryWarning (F64.fin (2 ^ 1073)) ⟨17179869184, 12884901888⟩,
            Effect.goGC, Effect.freeOSMemory] :=
  checkMemoryUsage_exact_gt ⟨17179869184, 12884901888⟩ (2 ^ 1073) 3 1072 (initWorld 4)
    (by decide) (by decide) (by decide) (by decide) (by decide) (by decide)

/-! ## Shared lemmas on `sendToChecker` -/

theorem range_maxRetries : List.range maxRetries = [0, 1, 2] := by decide

theorem failedAttempts_zero : failedAttempts 0 = [] := by decide

theorem failedAttempts_one :
    failedAttempts 1 = [Effect.chanFull 0, Effect.sleep (Millisecond * (0 * 10))] := by decide

theorem failedAttempts_two :
    failedAttempts 2 = [Effect.chanFull 0, Effect.sleep (Millisecond * (0 * 10)),
      Effect.chanFull 1, Effect.sleep (Millisecond * (1 * 10))] := by decide

theorem failedAttempts_three :
    failedAttempts 3 = [Effect.chanFull 0, Effect.sleep (Millisecond * (0 * 10)),
      Effect.chanFull 1, Effect.sleep (Millisecond * (1 * 10)),
      Effect.chanFull 2, Effect.sleep (Millisecond * (2 * 10))] := by decide

/-- Complete description of one call, by the first attempt that finds room. -/
theorem sendToChecker_eq (env : ChanEnv) (ctx : World) (address : String)
    (privateKey : PrivateKey) (addrType : AddressType) :
    sendToChecker env ctx address privateKey addrType =
      match firstRoom env ctx with
      | some k =>
        { ctx with
          addressChan := seen env ctx.addressChan k ++ [⟨address, privateKey, addrType⟩],
          trace := ctx.trace ++ (failedAttempts k ++
            [Effect.chanSend k ⟨address, privateKey, addrType⟩]) }
      | none =>
        { ctx with
          addressChan := seen env ctx.addressChan (maxRetries - 1),
          TotalDroppedAddresses := ctx.TotalDroppedAddresses + 1,
          trace := ctx.trace ++ (failedAttempts maxRetries ++ [Effect.dropAdd 1]) } := by
  unfold sendToChecker firstRoom
  rw [range_maxRetries]
  by_cases h0 : (env 0 ctx.addressChan).length < ctx.chanCap
  · simp [sendLoop, roomAt, seen, h0, failedAttempts_zero]
  · by_cases h1 : (env 1 (env 0 ctx.addressChan)).length < ctx.chanCap
    · simp [sendLoop, roomAt, seen, h0, h1, failedAttempts_one]
    · by_cases h2 : (env 2 (env 1 (env 0 ctx.addressChan))).length < ctx.chanCap
      · simp [sendLoop, roomAt, seen, h0, h1, h2, failedAttempts_two]
      · simp [sendLoop, roomAt, seen, h0, h1, h2, failedAttempts_three, maxRetries,
          DropCounter.Add]

theorem firstRoom_some (env : ChanEnv) (ctx : World) (k : Nat)
    (h : firstRoom env ctx = some k) :
    k < maxRetries ∧ roomAt env ctx k = true ∧ ∀ j, j < k → roomAt env ctx j = false := by
  unfold firstRoom at h
  rw [range_maxRetries] at h
  simp only [List.find?] at h
  cases h0 : roomAt env ctx 0 <;> cases h1 : roomAt env ctx 1 <;>
    cases h2 : roomAt env ctx 2 <;> simp [h0, h1, h2] at h <;> subst h <;>
    refine ⟨by decide, by assumption, ?_⟩ <;> intro j hj <;> interval_cases j <;> assumption

theorem firstRoom_none (env : ChanEnv) (ctx : World) :
    firstRoom env ctx = none ↔ allFull env ctx := by
  unfold firstRoom allFull
  rw [range_maxRetries]
  constructor
  · intro h i hi
    simp only [List.find?_eq_none, List.mem_cons, List.mem_singleton] at h
    have hi3 : i < 3 := hi
    interval_cases i <;> simpa using h _ (by simp)
  · intro h
    simp only [List.find?_eq_none]
    intro x hx
    have hx3 : x < maxRetries := by
      simp only [List.mem_cons, List.mem_singleton] at hx
      rcases hx with rfl | rfl | rfl | hx <;> first | decide | cases hx
    simp [h x hx3]

theorem callEffects_eq (env : ChanEnv) (ctx : World) (address : String)
    (privateKey : PrivateKey) (addrType : AddressType) :
    callEffects env ctx address privateKey addrType =
      match firstRoom env ctx with
      | some k => failedAttempts k ++ [Effect.chanSend k ⟨address, privateKey, addrType⟩]
      | none => failedAttempts maxRetries ++ [Effect.dropAdd 1] := by
  unfold callEffects
  rw [sendToChecker_eq]
  cases firstRoom env ctx <;> simp

theorem trace_eq_append_callEffects (env : ChanEnv) (ctx : World) (address : String)
    (privateKey : PrivateKey) (addrType : AddressType) :
    (sendToChecker env ctx address privateKey addrType).trace =
      ctx.trace ++ callEffects env ctx address privateKey addrType := by
  rw [callEffects_eq, sendToChecker_eq]
  cases firstRoom env ctx <;> simp

theorem seen_quiet (buf : List WalletInfo) (i : Nat) : seen quiet buf i = buf := by
  induction i with
  | zero => rfl
  | succ i ih => simp [seen, quiet, ih] 

theorem firstRoom_quiet (ctx : World) :
    firstRoom quiet ctx = if ctx.addressChan.length < ctx.chanCap then some 0 else none := by
  unfold firstRoom
  rw [range_maxRetries]
  by_cases h : ctx.addressChan.length < ctx.chanCap <;> simp [roomAt, seen_quiet, h]

/-- One call with nothing else touching the channel. -/
theorem sendToChecker_quiet (ctx : World) (address : String) (privateKey : PrivateKey)
    (addrType : AddressType) :
    sendToChecker quiet ctx address privateKey addrType =
      if ctx.addressChan.length < ctx.chanCap then
        { ctx with
          addressChan := ctx.addressChan ++ [⟨address, privateKey, addrType⟩],
          trace := ctx.trace ++ [Effect.chanSend 0 ⟨address, privateKey, addrType⟩] }
      else
        { ctx with
          TotalDroppedAddresses := ctx.TotalDroppedAddresses + 1,
          trace := ctx.trace ++ (failedAttempts maxRetries ++ [Effect.dropAdd 1]) } := by
  rw [sendToChecker_eq, firstRoom_quiet]
  by_cases h : ctx.addressChan.length < ctx.chanCap <;>
    simp [h, seen_quiet, failedAttempts_zero]

theorem sendToChecker_chanCap (env : ChanEnv) (ctx : World) (address : String)
    (privateKey : PrivateKey) (addrType : AddressType) :
    (sendToChecker env ctx address privateKey addrType).chanCap = ctx.chanCap := by
  rw [sendToChecker_eq]
  cases firstRoom env ctx <;> rfl

/-! ## Drop accounting of one call -/

/-- C1: whatever the rest of the process does to the buffer during a call of
`sendToChecker`, `TotalDroppedAddresses` grows by exactly 1 when all three
non-blocking attempts find the buffer full and by exactly 0 otherwise; the call
performs one `Add(1)` in the first case and no `Add` in the second, so the growth
is never 2 or 3. -/
theorem C1_drop_counter_step (env : ChanEnv) (ctx : World) (address : String)
    (privateKey : PrivateKey) (addrType : AddressType) :
    (sendToChecker env ctx address privateKey addrType).TotalDroppedAddresses =
        ctx.TotalDroppedAddresses + (if allFull env ctx then 1 else 0) ∧
      dropAdds (callEffects env ctx address privateKey addrType) =
        (if allFull env ctx then [1] else []) ∧
      (sendToChecker env ctx address privateKey addrType).TotalDroppedAddresses ≠
        ctx.TotalDroppedAddresses + 2 ∧
      (sendToChecker env ctx address privateKey addrType).TotalDroppedAddresses ≠
        ctx.TotalDroppedAddresses + 3 := by
  rw [callEffects_eq, sendToChecker_eq]
  cases h : firstRoom env ctx with
  | none =>
    have hf : allFull env ctx := (firstRoom_none env ctx).1 h
    simp [hf, failedAttempts_three, maxRetries, dropAdds]
  | some k =>
    have hf : ¬ allFull env ctx := by
      intro hf
      rw [(firstRoom_none env ctx).2 hf] at h
      cases h
    obtain ⟨hk, -, -⟩ := firstRoom_some env ctx k h
    have hk3 : k < 3 := hk
    interval_cases k <;>
      simp [hf, failedAttempts_zero, failedAttempts_one, failedAttempts_two, dropAdds]

/-- C1, on two concrete calls against a buffer of capacity 1 that holds one record:
with a paused consumer the counter goes from 4 to 5; when the consumer takes the
record before the third attempt the counter stays at 4. -/
theorem C1_drop_counter_step_witness :
    (sendToChecker quiet ⟨[⟨"1Held", 7, 0⟩], 1, 4, []⟩ "1New" 8 0).TotalDroppedAddresses = 5 ∧
      (sendToChecker (consumerRecv (fun i => if i = 2 then 1 else 0))
        ⟨[⟨"1Held", 7, 0⟩], 1, 4, []⟩ "1New" 8 0).TotalDroppedAddresses = 4 :=
  ⟨(C1_drop_counter_step quiet ⟨[⟨"1Held", 7, 0⟩], 1, 4, []⟩ "1New" 8 0).1,
    (C1_drop_counter_step (consumerRecv (fun i => if i = 2 then 1 else 0))
      ⟨[⟨"1Held", 7, 0⟩], 1, 4, []⟩ "1New" 8 0).1⟩

/-- C9: if an attempt finds room, the record built from the call's arguments is
appended to the buffer once, at the first such attempt `k` (all earlier attempts
found the buffer full), and the send is the last effect of the call: `k` failed
attempts with their sleeps precede it, nothing follows.  If no attempt finds
room, the buffer is the one the environment alone produced and no send took
place; with a quiet environment it is the buffer the call started with. -/
theorem C9_first_room_send (env : ChanEnv) (ctx : World) (address : String)
    (privateKey : PrivateKey) (addrType : AddressType) :
    (match firstRoom env ctx with
      | some k =>
        k < maxRetries ∧ roomAt env ctx k = true ∧ (∀ j, j < k → roomAt env ctx j = false) ∧
        (sendToChecker env ctx address privateKey addrType).addressChan =
          seen env ctx.addressChan k ++
            [{ Address := address, PrivateKey := privateKey, AddrType := addrType }] ∧
        callEffects env ctx address privateKey addrType =
          failedAttempts k ++ [Effect.chanSend k
            { Address := address, PrivateKey := privateKey, AddrType := addrType }] ∧
        sends (callEffects env ctx address privateKey addrType) =
          [{ Address := address, PrivateKey := privateKey, AddrType := addrType }] ∧
        attempts (callEffects env ctx address privateKey addrType) = k + 1 ∧
        (sleeps (callEffects env ctx address privateKey addrType)).length = k
      | none =>
        allFull env ctx ∧
        (sendToChecker env ctx address privateKey addrType).addressChan =
          env 2 (env 1 (env 0 ctx.addressChan)) ∧
        sends (callEffects env ctx address privateKey addrType) = []) ∧
    (sendToChecker quiet ctx address privateKey addrType).addressChan =
      (if ctx.addressChan.length < ctx.chanCap then
        ctx.addressChan ++
          [{ Address := address, PrivateKey := privateKey, AddrType := addrType }]
      else ctx.addressChan) := by
  refine ⟨?_, ?_⟩
  · rw [callEffects_eq, sendToChecker_eq]
    cases h : firstRoom env ctx with
    | none =>
      exact ⟨(firstRoom_none env ctx).1 h, by simp [maxRetries, seen],
        by simp [failedAttempts_three, maxRetries, sends]⟩
    | some k =>
      obtain ⟨hk, hroom, hfull⟩ := firstRoom_some env ctx k h
      refine ⟨hk, hroom, hfull, rfl, rfl, ?_, ?_, ?_⟩ <;>
        · have hk3 : k < 3 := hk
          interval_cases k <;>
            simp [failedAttempts_zero, failedAttempts_one, failedAttempts_two, sends, attempts,
              sleeps]
  · rw [sendToChecker_quiet]
    by_cases h : ctx.addressChan.length < ctx.chanCap <;> simp [h]

/-- C8: every call makes at most 3 attempts and at most 3 sleeps; the sleep after
the failed attempt of index `i` lasts `i × 10 ms`, so the delays of a call are an
initial segment of `0, 10, 20 ms`, strictly increasing; they add up to at most
30 ms, to exactly 30 ms when the candidate is dropped and to `5·k·(k-1)` ms when
it is delivered at attempt index `k`.  (`sendToChecker` is a total function: the
call always ends.) -/
theorem C8_bounded_backoff (env : ChanEnv) (ctx : World) (address : String)
    (privateKey : PrivateKey) (addrType : AddressType) :
    attempts (callEffects env ctx address privateKey addrType) ≤ 3 ∧
    (sleeps (callEffects env ctx address privateKey addrType)).length ≤ 3 ∧
    (sleeps (callEffects env ctx address privateKey addrType)).Pairwise (· < ·) ∧
    (sleeps (callEffects env ctx address privateKey addrType)).sum ≤ 30 * Millisecond ∧
    (match firstRoom env ctx with
      | some k =>
        callEffects env ctx address privateKey addrType =
          failedAttempts k ++ [Effect.chanSend k ⟨address, privateKey, addrType⟩] ∧
        sleeps (callEffects env ctx address privateKey addrType) =
          (List.range k).map (fun i => i * 10 * Millisecond) ∧
        (sleeps (callEffects env ctx address privateKey addrType)).sum =
          5 * k * (k - 1) * Millisecond
      | none =>
        callEffects env ctx address privateKey addrType =
          failedAttempts 3 ++ [Effect.dropAdd 1] ∧
        sleeps (callEffects env ctx address privateKey addrType) =
          [0 * 10 * Millisecond, 1 * 10 * Millisecond, 2 * 10 * Millisecond] ∧
        (sleeps (callEffects env ctx address privateKey addrType)).sum = 30 * Millisecond) := by
  rw [callEffects_eq]
  cases h : firstRoom env ctx with
  | none =>
    simp [failedAttempts_three, maxRetries, sleeps, attempts, Millisecond]
  | some k =>
    obtain ⟨hk, -, -⟩ := firstRoom_some env ctx k h
    have hk3 : k < 3 := hk
    interval_cases k <;>
      simp [failedAttempts_zero, failedAttempts_one, failedAttempts_two, sleeps, attempts,
        Millisecond, List.range_succ]

/-- C5 (as the code has it): a call of `sendToChecker` emits no log event at all,
dropped candidate or not; a drop shows only as the single `Add(1)` on
`TotalDroppedAddresses`, a delivery leaves the counter alone.  The event of
`handleChannelFull` is a log event, and `sendToChecker` never produces it. -/
theorem C5_no_log_event (env : ChanEnv) (ctx : World) (address : String)
    (privateKey : PrivateKey) (addrType : AddressType) :
    (callEffects env ctx address privateKey addrType).any Effect.isLog = false ∧
    ((handleChannelFull ctx address).trace.drop ctx.trace.length).any Effect.isLog = true ∧
    (match firstRoom env ctx with
      | some _ =>
        (sendToChecker env ctx address privateKey addrType).TotalDroppedAddresses =
          ctx.TotalDroppedAddresses ∧
        dropAdds (callEffects env ctx address privateKey addrType) = []
      | none =>
        (sendToChecker env ctx address privateKey addrType).TotalDroppedAddresses =
          ctx.TotalDroppedAddresses + 1 ∧
        dropAdds (callEffects env ctx address privateKey addrType) = [1]) := by
  rw [callEffects_eq, sendToChecker_eq]
  refine ⟨?_, by simp [handleChannelFull, Effect.isLog], ?_⟩
  · cases h : firstRoom env ctx with
    | none => simp [failedAttempts_three, maxRetries, Effect.isLog]
    | some k =>
      obtain ⟨hk, -, -⟩ := firstRoom_some env ctx k h
      have hk3 : k < 3 := hk
      interval_cases k <;>
        simp [failedAttempts_zero, failedAttempts_one, failedAttempts_two, Effect.isLog]
  · cases h : firstRoom env ctx with
    | none => simp [failedAttempts_three, maxRetries, dropAdds]
    | some k =>
      obtain ⟨hk, -, -⟩ := firstRoom_some env ctx k h
      have hk3 : k < 3 := hk
      interval_cases k <;>
        simp [failedAttempts_zero, failedAttempts_one, failedAttempts_two, dropAdds]

/-- C5 fails as stated: with the buffer full (capacity 1, one record waiting, no
consumer) the candidate is dropped and counted, and the call has emitted no log
event. -/
theorem C5_counterexample :
    allFull quiet ⟨[⟨"1Held", 7, 0⟩], 1, 0, []⟩ ∧
    (sendToChecker quiet ⟨[⟨"1Held", 7, 0⟩], 1, 0, []⟩ "1Dropped" 5 0).TotalDroppedAddresses = 1 ∧
    (sendToChecker quiet ⟨[⟨"1Held", 7, 0⟩], 1, 0, []⟩ "1Dropped" 5 0).trace =
      [Effect.chanFull 0, Effect.sleep 0, Effect.chanFull 1, Effect.sleep 10000000,
       Effect.chanFull 2, Effect.sleep 20000000, Effect.dropAdd 1] ∧
    ¬ ((sendToChecker quiet ⟨[⟨"1Held", 7, 0⟩], 1, 0, []⟩ "1Dropped" 5 0).trace.any
        Effect.isLog = true) := by
  decide

/-! ## Sequences of calls -/

theorem sends_append (a b : List Effect) : sends (a ++ b) = sends a ++ sends b := by
  induction a with
  | nil => rfl
  | cons e t ih => cases e <;> simp [sends, ih]

/-- Effect of one call on the two quantities of the accounting. -/
theorem sendToChecker_accounting (env : ChanEnv) (ctx : World) (w : WalletInfo) :
    (sendToChecker env ctx w.Address w.PrivateKey w.AddrType).TotalDroppedAddresses =
        ctx.TotalDroppedAddresses + (if (firstRoom env ctx).isSome then 0 else 1) ∧
      sends (sendToChecker env ctx w.Address w.PrivateKey w.AddrType).trace =
        sends ctx.trace ++ (if (firstRoom env ctx).isSome then [w] else []) := by
  rw [sendToChecker_eq]
  cases h : firstRoom env ctx with
  | none => simp [sends_append, failedAttempts_three, maxRetries, sends]
  | some k =>
    obtain ⟨hk, -, -⟩ := firstRoom_some env ctx k h
    have hk3 : k < 3 := hk
    interval_cases k <;>
      simp [sends_append, failedAttempts_zero, failedAttempts_one, failedAttempts_two, sends]

theorem runCalls_append (a b : List (ChanEnv × WalletInfo)) (s : World) :
    runCalls (a ++ b) s = runCalls b (runCalls a s) := by
  induction a generalizing s with
  | nil => rfl
  | cons c t ih => obtain ⟨env, w⟩ := c; simp [runCalls, ih]

theorem runCalls_counter_mono (calls : List (ChanEnv × WalletInfo)) (s : World) :
    s.TotalDroppedAddresses ≤ (runCalls calls s).TotalDroppedAddresses := by
  induction calls generalizing s with
  | nil => exact Nat.le_refl _
  | cons c t ih =>
    obtain ⟨env, w⟩ := c
    refine Nat.le_trans ?_ (ih _)
    rw [(sendToChecker_accounting env s w).1]
    exact Nat.le_add_right _ _

theorem outcomes_length (calls : List (ChanEnv × WalletInfo)) (s : World) :
    (outcomes calls s).length = calls.length := by
  induction calls generalizing s with
  | nil => rfl
  | cons c t ih => obtain ⟨env, w⟩ := c; simp [outcomes, ih]

theorem runCalls_accounting (calls : List (ChanEnv × WalletInfo)) (s : World) :
    (runCalls calls s).TotalDroppedAddresses =
        s.TotalDroppedAddresses + (outcomes calls s).count false ∧
      sends (runCalls calls s).trace =
        sends s.trace ++ keepDelivered calls (outcomes calls s) ∧
      (keepDelivered calls (outcomes calls s)).length = (outcomes calls s).count true := by
  induction calls generalizing s with
  | nil => simp [runCalls, outcomes, keepDelivered]
  | cons c t ih =>
    obtain ⟨env, w⟩ := c
    obtain ⟨h1, h2, h3⟩ := ih (sendToChecker env s w.Address w.PrivateKey w.AddrType)
    obtain ⟨a1, a2⟩ := sendToChecker_accounting env s w
    simp only [runCalls, outcomes]
    rw [h1, h2, a1, a2]
    cases hfr : (firstRoom env s).isSome
    · simp [keepDelivered, List.count_cons, h3]; omega
    · simp [keepDelivered, List.count_cons, h3]

/-- Paused consumer, any starting buffer that respects the capacity. -/
theorem runCalls_quiet (ws : List WalletInfo) (buf : List WalletInfo) (cap d : Nat)
    (t : List Effect) (hbuf : buf.length ≤ cap) :
    (runCalls (ws.map fun w => (quiet, w)) ⟨buf, cap, d, t⟩).addressChan =
        (buf ++ ws).take cap ∧
      (runCalls (ws.map fun w => (quiet, w)) ⟨buf, cap, d, t⟩).TotalDroppedAddresses =
        d + (buf.length + ws.length - cap) := by
  induction ws generalizing buf d t with
  | nil =>
    simp only [List.map_nil, runCalls, List.append_nil, List.length_nil, Nat.add_zero]
    exact ⟨(List.take_of_length_le hbuf).symm, by omega⟩
  | cons w ws ih =>
    simp only [List.map_cons, runCalls]
    rw [sendToChecker_quiet]
    by_cases h : buf.length < cap
    · simp only [h, if_true]
      obtain ⟨h1, h2⟩ := ih (buf ++ [w]) d
        (t ++ [Effect.chanSend 0 ⟨w.Address, w.PrivateKey, w.AddrType⟩])
        (by simp only [List.length_append, List.length_singleton]; omega)
      refine ⟨by rw [h1]; simp, ?_⟩
      rw [h2, List.length_append, List.length_singleton, List.length_cons]
      omega
    · have hfull : buf.length = cap := by omega
      simp only [h, if_false]
      obtain ⟨h1, h2⟩ := ih buf (d + 1)
        (t ++ (failedAttempts maxRetries ++ [Effect.dropAdd 1])) hbuf
      refine ⟨?_, ?_⟩
      · rw [h1, List.take_append_of_le_length (Nat.le_of_eq hfull.symm),
          List.take_append_of_le_length (Nat.le_of_eq hfull.symm)]
      · rw [h2]
        simp only [List.length_cons]
        omega

/-- C2: `N` sequential calls against an initially empty buffer of capacity `C`
with nothing receiving raise the counter by exactly `N - C` (truncated
subtraction: by 0 when `N < C`), and the buffer ends as the first `min N C`
submitted candidates, in submission order. -/
theorem C2_paused_consumer_drops (ws : List WalletInfo) (C d : Nat) (t : List Effect) :
    (runCalls (ws.map fun w => (quiet, w)) ⟨[], C, d, t⟩).TotalDroppedAddresses =
        d + (ws.length - C) ∧
      (runCalls (ws.map fun w => (quiet, w)) ⟨[], C, d, t⟩).addressChan = ws.take C ∧
      (runCalls (ws.map fun w => (quiet, w)) ⟨[], C, d, t⟩).addressChan.length =
        min ws.length C := by
  obtain ⟨h1, h2⟩ := runCalls_quiet ws [] C d t (Nat.zero_le _)
  refine ⟨by rw [h2]; simp, by rw [h1]; simp, by rw [h1]; simp [Nat.min_comm]⟩

/-- C2, with `N = 5` and `C = 2`: three drops, and the buffer holds the first two
candidates. -/
theorem C2_paused_consumer_drops_witness :
    (runCalls (fiveCandidates.map fun w => (quiet, w)) ⟨[], 2, 0, []⟩).TotalDroppedAddresses =
        3 ∧
      (runCalls (fiveCandidates.map fun w => (quiet, w)) ⟨[], 2, 0, []⟩).addressChan =
        [⟨"1A", 1, 0⟩, ⟨"1B", 2, 0⟩] :=
  ⟨(C2_paused_consumer_drops fiveCandidates 2 0 []).1,
    (C2_paused_consumer_drops fiveCandidates 2 0 []).2.1⟩

/-- C3: for every sequence of calls from an empty buffer and a zero counter,
whatever the rest of the process does to the buffer before each attempt (the
consumer receiving between retry attempts included), the counter never
decreases from one call to the next, and at the end the number of calls is the
counter plus the number of records sent on the channel.  The records sent are,
in order, exactly the candidates of the calls that found room, one send each;
the counter is the number of calls that found none, and none of those sent
anything. -/
theorem C3_no_silent_loss (cap : Nat) (calls : List (ChanEnv × WalletInfo)) :
    (∀ k j, (runCalls (calls.take k) (initWorld cap)).TotalDroppedAddresses ≤
        (runCalls (calls.take (k + j)) (initWorld cap)).TotalDroppedAddresses) ∧
      calls.length =
        (runCalls calls (initWorld cap)).TotalDroppedAddresses +
          (sends (runCalls calls (initWorld cap)).trace).length ∧
      (outcomes calls (initWorld cap)).length = calls.length ∧
      sends (runCalls calls (initWorld cap)).trace =
        keepDelivered calls (outcomes calls (initWorld cap)) ∧
      (runCalls calls (initWorld cap)).TotalDroppedAddresses =
        (outcomes calls (initWorld cap)).count false ∧
      (sends (runCalls calls (initWorld cap)).trace).length =
        (outcomes calls (initWorld cap)).count true := by
  obtain ⟨h1, h2, h3⟩ := runCalls_accounting calls (initWorld cap)
  have hs : sends (initWorld cap).trace = [] := rfl
  have hz : (initWorld cap).TotalDroppedAddresses = 0 := rfl
  rw [hs, List.nil_append] at h2
  rw [hz, Nat.zero_add] at h1
  refine ⟨?_, ?_, outcomes_length _ _, h2, h1, by rw [h2, h3]⟩
  · intro k j
    have hsplit : calls.take (k + j) = calls.take k ++ (calls.drop k).take j := by
      rw [List.take_add]
    rw [hsplit, runCalls_append]
    exact runCalls_counter_mono _ _
  · rw [h1, h2, h3, ← outcomes_length calls (initWorld cap)]
    have := List.count_add_count_not (outcomes calls (initWorld cap)) true
    simp only [Bool.not_true] at this
    omega

/-- C3, on `retryScenario`: three calls, one drop, two sends (the second after two
failed attempts), and the buffer ends holding the second candidate. -/
theorem C3_no_silent_loss_witness :
    (runCalls retryScenario (initWorld 1)).TotalDroppedAddresses = 1 ∧
      sends (runCalls retryScenario (initWorld 1)).trace =
        [⟨"1First", 11, 0⟩, ⟨"1Second", 12, 1⟩] ∧
      (runCalls retryScenario (initWorld 1)).addressChan = [⟨"1Second", 12, 1⟩] ∧
      outcomes retryScenario (initWorld 1) = [true, true, false] ∧
      retryScenario.length =
        (runCalls retryScenario (initWorld 1)).TotalDroppedAddresses +
          (sends (runCalls retryScenario (initWorld 1)).trace).length :=
  ⟨by decide, by decide, by decide, by decide, (C3_no_silent_loss 1 retryScenario).2.1⟩

/-! ## Memory governor -/

/-- C10 (as the code has it): `checkMemoryUsage` issues the warning, the
compaction request and the release exactly when the `float64` quotient it
computes, `float64(Used) / float64(Total)`, strictly exceeds `MemoryTarget`; then
each happens exactly once, in that order, and the warning carries the percentage
(the quotient times 100, rounded once), the threshold percentage, used GB and
total GB.  Otherwise nothing happens.  The hand-off buffer, its capacity and the
drop counter are the same after the call in every case.  Against the exact ratio
`Used / Total`, for fields below `2 ^ 53`: nothing happens when the exact ratio
is at most a finite threshold, and all three happen once when the exact ratio
reaches a binary64 value above the threshold. -/
theorem C10_governor_trigger_and_frame (MemoryTarget : F64) (v : VirtualMemoryStat)
    (ctx : World) :
    (checkMemoryUsage MemoryTarget v ctx).trace =
        ctx.trace ++ memoryEffects MemoryTarget v ctx ∧
      memoryEffects MemoryTarget v ctx =
        (if F64.gt (usedPercentage v) MemoryTarget = true then
          [Effect.logStatus LogLevel.LogWarn
              "Memory (%.1f%% > %.1f%% target) - %.1fGB/%.1fGB [Compacting]"
              [LogArg.f64 (F64.mul (usedPercentage v) (F64.fin (100 * F64.one))),
               LogArg.f64 (F64.mul MemoryTarget (F64.fin (100 * F64.one))),
               LogArg.f64 (F64.div (F64.ofUint64 v.Used) GiB),
               LogArg.f64 (F64.div (F64.ofUint64 v.Total) GiB)],
            Effect.goGC, Effect.freeOSMemory]
        else []) ∧
      (F64.gt (usedPercentage v) MemoryTarget = true ↔
        warnings (memoryEffects MemoryTarget v ctx) = 1 ∧
        compactions (memoryEffects MemoryTarget v ctx) = 1 ∧
        releases (memoryEffects MemoryTarget v ctx) = 1) ∧
      (F64.gt (usedPercentage v) MemoryTarget = false ↔
        warnings (memoryEffects MemoryTarget v ctx) = 0 ∧
        compactions (memoryEffects MemoryTarget v ctx) = 0 ∧
        releases (memoryEffects MemoryTarget v ctx) = 0) ∧
      (checkMemoryUsage MemoryTarget v ctx).addressChan = ctx.addressChan ∧
      (checkMemoryUsage MemoryTarget v ctx).chanCap = ctx.chanCap ∧
      (checkMemoryUsage MemoryTarget v ctx).TotalDroppedAddresses =
        ctx.TotalDroppedAddresses ∧
      (∀ k, usedPercentage v = F64.fin k →
        F64.mul (usedPercentage v) (F64.fin (100 * F64.one)) =
          roundNearestEven (k * (100 * F64.one)) F64.one) ∧
      (∀ t, MemoryTarget = F64.fin t →
        F64.mul MemoryTarget (F64.fin (100 * F64.one)) =
          roundNearestEven (t * (100 * F64.one)) F64.one) ∧
      (∀ M E, MemoryTarget = F64.fin (M * 2 ^ E) → M < 2 ^ 53 → M * 2 ^ E < 2 ^ 2098 →
        v.Used < 2 ^ 53 → 0 < v.Total → v.Total < 2 ^ 53 →
        v.Used * F64.one ≤ M * 2 ^ E * v.Total →
        memoryEffects MemoryTarget v ctx = []) ∧
      (∀ k M' E', MemoryTarget = F64.fin k → M' < 2 ^ 53 → k < M' * 2 ^ E' →
        v.Used < 2 ^ 53 → 0 < v.Total → v.Total < 2 ^ 53 →
        M' * 2 ^ E' * v.Total ≤ v.Used * F64.one →
        warnings (memoryEffects MemoryTarget v ctx) = 1 ∧
        compactions (memoryEffects MemoryTarget v ctx) = 1 ∧
        releases (memoryEffects MemoryTarget v ctx) = 1) := by
  have base : (checkMemoryUsage MemoryTarget v ctx).trace =
        ctx.trace ++ memoryEffects MemoryTarget v ctx ∧
      memoryEffects MemoryTarget v ctx =
        (if F64.gt (usedPercentage v) MemoryTarget = true then
          [memoryWarning MemoryTarget v, Effect.goGC, Effect.freeOSMemory]
        else []) := by
    unfold memoryEffects checkMemoryUsage
    cases h : F64.gt (usedPercentage v) MemoryTarget <;> simp
  refine ⟨base.1, ?_, ?_, ?_, ?_, ?_, ?_, ?_, ?_, ?_, ?_⟩
  · rw [base.2]; rfl
  · rw [base.2]
    cases h : F64.gt (usedPercentage v) MemoryTarget <;>
      simp [memoryWarning, warnings, compactions, releases]
  · rw [base.2]
    cases h : F64.gt (usedPercentage v) MemoryTarget <;>
      simp [memoryWarning, warnings, compactions, releases]
  · unfold checkMemoryUsage
    cases h : F64.gt (usedPercentage v) MemoryTarget <;> simp
  · unfold checkMemoryUsage
    cases h : F64.gt (usedPercentage v) MemoryTarget <;> simp
  · unfold checkMemoryUsage
    cases h : F64.gt (usedPercentage v) MemoryTarget <;> simp
  · intro k hk
    rw [hk]
    rfl
  · intro t ht
    rw [ht]
    rfl
  · intro M E hT hM hg hU hT0 hTot hle
    rw [base.2, hT, (checkMemoryUsage_exact_le v M E ctx hU hT0 hTot hM hg hle).1]
    simp
  · intro k M' E' hT hM hk hU hT0 hTot hge
    rw [base.2, hT, (checkMemoryUsage_exact_gt v k M' E' ctx hU hT0 hTot hM hk hge).1]
    simp [memoryWarning, warnings, compactions, releases]

set_option maxRecDepth 100000 in
/-- C10, at concrete samples of 16 GiB with `MemoryTarget = 0.5`: 12 GiB used
gives the warning with the arguments 75.0 (percentage), 50.0 (threshold
percentage), 12.0 (used GB), 16.0 (total GB), then the compaction request, then
the release; 4 GiB used, where the exact ratio is below the threshold, gives
nothing; and 12 GiB used, where the exact ratio reaches 0.75, gives each of the
three once. -/
theorem C10_governor_trigger_and_frame_witness :
    memoryEffects (F64.fin (2 ^ 1073)) ⟨17179869184, 12884901888⟩ (initWorld 4) =
        [Effect.logStatus LogLevel.LogWarn
            "Memory (%.1f%% > %.1f%% target) - %.1fGB/%.1fGB [Compacting]"
            [LogArg.f64 (F64.fin (75 * 2 ^ 1074)), LogArg.f64 (F64.fin (50 * 2 ^ 1074)),
             LogArg.f64 (F64.fin (12 * 2 ^ 1074)), LogArg.f64 (F64.fin (16 * 2 ^ 1074))],
          Effect.goGC, Effect.freeOSMemory] ∧
      memoryEffects (F64.fin (1 * 2 ^ 1073)) ⟨17179869184, 4294967296⟩ (initWorld 4) = [] ∧
      (warnings (memoryEffects (F64.fin (2 ^ 1073)) ⟨17179869184, 12884901888⟩
          (initWorld 4)) = 1 ∧
        compactions (memoryEffects (F64.fin (2 ^ 1073)) ⟨17179869184, 12884901888⟩
          (initWorld 4)) = 1 ∧
        releases (memoryEffects (F64.fin (2 ^ 1073)) ⟨17179869184, 12884901888⟩
          (initWorld 4)) = 1) :=
  ⟨(C10_governor_trigger_and_frame (F64.fin (2 ^ 1073)) ⟨17179869184, 12884901888⟩
      (initWorld 4)).2.1.trans (by decide),
    (C10_governor_trigger_and_frame (F64.fin (1 * 2 ^ 1073)) ⟨17179869184, 4294967296⟩
      (initWorld 4)).2.2.2.2.2.2.2.2.2.1 1 1073 rfl
      (by decide) (by decide) (by decide) (by decide) (by decide) (by decide),
    (C10_governor_trigger_and_frame (F64.fin (2 ^ 1073)) ⟨17179869184, 12884901888⟩
      (initWorld 4)).2.2.2.2.2.2.2.2.2.2 (2 ^ 1073) 3 1072 rfl
      (by decide) (by decide) (by decide) (by decide) (by decide) (by decide)⟩

set_option maxRecDepth 100000 in
/-- C10 fails as stated: with `Total = 2500000000000001 · 1024` bytes,
`Used = 2000000000000001 · 1024` bytes and `MemoryTarget` the binary64 value
nearest to 0.8 (`3602879701896397 · 2⁻⁵²`), the exact ratio `Used / Total` is
strictly above `MemoryTarget`, yet the `float64` quotient rounds to
`MemoryTarget` itself and `checkMemoryUsage` does nothing: no warning, no
compaction request, no release.  The same happens with both fields below
`2 ^ 53` (`Total = 2500000000000001`, `Used = 2000000000000001`). -/
theorem C10_counterexample :
    3602879701896397 * 2 ^ 1022 * (2500000000000001 * 1024) <
        2000000000000001 * 1024 * F64.one ∧
      usedPercentage ⟨2500000000000001 * 1024, 2000000000000001 * 1024⟩ =
        F64.fin (3602879701896397 * 2 ^ 1022) ∧
      F64.gt (usedPercentage ⟨2500000000000001 * 1024, 2000000000000001 * 1024⟩)
        (F64.fin (3602879701896397 * 2 ^ 1022)) = false ∧
      memoryEffects (F64.fin (3602879701896397 * 2 ^ 1022))
        ⟨2500000000000001 * 1024, 2000000000000001 * 1024⟩ (initWorld 4) = [] ∧
      checkMemoryUsage (F64.fin (3602879701896397 * 2 ^ 1022))
        ⟨2500000000000001 * 1024, 2000000000000001 * 1024⟩ (initWorld 4) = initWorld 4 ∧
      3602879701896397 * 2 ^ 1022 * 2500000000000001 < 2000000000000001 * F64.one ∧
      checkMemoryUsage (F64.fin (3602879701896397 * 2 ^ 1022))
        ⟨2500000000000001, 2000000000000001⟩ (initWorld 4) = initWorld 4 := by
  decide

/-- C4 (as the code has it): a utilisation strictly above `MemoryTarget`
triggers exactly one compaction request and exactly one release; a utilisation
below the threshold, or exactly equal to it, triggers neither. -/
theorem C4_governor_boundary (MemoryTarget : F64) (v : VirtualMemoryStat) (ctx : World) :
    (F64.gt (usedPercentage v) MemoryTarget = true →
        compactions (memoryEffects MemoryTarget v ctx) = 1 ∧
        releases (memoryEffects MemoryTarget v ctx) = 1) ∧
      (F64.gt MemoryTarget (usedPercentage v) = true →
        compactions (memoryEffects MemoryTarget v ctx) = 0 ∧
        releases (memoryEffects MemoryTarget v ctx) = 0) ∧
      (F64.eq (usedPercentage v) MemoryTarget = true →
        compactions (memoryEffects MemoryTarget v ctx) = 0 ∧
        releases (memoryEffects MemoryTarget v ctx) = 0) := by
  have below : F64.gt MemoryTarget (usedPercentage v) = true →
      F64.gt (usedPercentage v) MemoryTarget = false := by
    cases usedPercentage v <;> cases MemoryTarget <;> simp [F64.gt]
    omega
  have equal : F64.eq (usedPercentage v) MemoryTarget = true →
      F64.gt (usedPercentage v) MemoryTarget = false := by
    cases usedPercentage v <;> cases MemoryTarget <;> simp [F64.gt, F64.eq]
    omega
  unfold memoryEffects checkMemoryUsage
  refine ⟨fun h => ?_, fun h => ?_, fun h => ?_⟩
  · simp [h, memoryWarning, compactions, releases]
  · simp [below h, compactions, releases]
  · simp [equal h, compactions, releases]

set_option maxRecDepth 100000 in
/-- C4, at concrete samples with `MemoryTarget = 0.5`: 12 GiB of 16 GiB gives one
compaction request and one release, 4 GiB of 16 GiB gives none, 8 GiB of 16 GiB
(exactly the threshold) gives none. -/
theorem C4_governor_boundary_witness :
    (compactions (memoryEffects (F64.fin (2 ^ 1073)) ⟨17179869184, 12884901888⟩
        (initWorld 4)) = 1 ∧
      releases (memoryEffects (F64.fin (2 ^ 1073)) ⟨17179869184, 12884901888⟩
        (initWorld 4)) = 1) ∧
    (compactions (memoryEffects (F64.fin (2 ^ 1073)) ⟨17179869184, 4294967296⟩
        (initWorld 4)) = 0 ∧
      releases (memoryEffects (F64.fin (2 ^ 1073)) ⟨17179869184, 4294967296⟩
        (initWorld 4)) = 0) ∧
    (compactions (memoryEffects (F64.fin (2 ^ 1073)) ⟨17179869184, 8589934592⟩
        (initWorld 4)) = 0 ∧
      releases (memoryEffects (F64.fin (2 ^ 1073)) ⟨17179869184, 8589934592⟩
        (initWorld 4)) = 0) :=
  ⟨(C4_governor_boundary (F64.fin (2 ^ 1073)) ⟨17179869184, 12884901888⟩ (initWorld 4)).1
      (by decide),
    (C4_governor_boundary (F64.fin (2 ^ 1073)) ⟨17179869184, 4294967296⟩ (initWorld 4)).2.1
      (by decide),
    (C4_governor_boundary (F64.fin (2 ^ 1073)) ⟨17179869184, 8589934592⟩ (initWorld 4)).2.2
      (by decide)⟩

set_option maxRecDepth 100000 in
/-- C4 fails as stated: with 8 GiB used of 16 GiB and `MemoryTarget = 0.5` the
utilisation is exactly the threshold, and `checkMemoryUsage` requests no
compaction and no release (it does nothing at all).  The same happens with
8 GiB used of 10 GiB and `MemoryTarget = 0.8` (the binary64 value nearest to 0.8,
`3602879701896397 · 2⁻⁵²`). -/
theorem C4_counterexample :
    usedPercentage ⟨17179869184, 8589934592⟩ = F64.fin (2 ^ 1073) ∧
    F64.eq (usedPercentage ⟨17179869184, 8589934592⟩) (F64.fin (2 ^ 1073)) = true ∧
    compactions (memoryEffects (F64.fin (2 ^ 1073)) ⟨17179869184, 8589934592⟩
      (initWorld 4)) = 0 ∧
    releases (memoryEffects (F64.fin (2 ^ 1073)) ⟨17179869184, 8589934592⟩
      (initWorld 4)) = 0 ∧
    checkMemoryUsage (F64.fin (2 ^ 1073)) ⟨17179869184, 8589934592⟩ (initWorld 4) =
      initWorld 4 ∧
    F64.eq (usedPercentage ⟨10737418240, 8589934592⟩)
      (F64.fin (3602879701896397 * 2 ^ 1022)) = true ∧
    checkMemoryUsage (F64.fin (3602879701896397 * 2 ^ 1022)) ⟨10737418240, 8589934592⟩
      (initWorld 4) = initWorld 4 := by
  decide

/-! ## Store health check -/

/-- C6: `verifyDatabase` returns an error exactly when the handle `p.DB` is nil or
the lookup of the key `"test"` reports an error; with a working handle it
returns nil whether `"test"` is in the store or not.  It performs one lookup (of
`"test"`) when the handle is non-nil and none when it is nil, writes nothing, and
leaves the parser and its store as they were. -/
theorem C6_verifyDatabase (p : Parser) :
    ((verifyDatabase p).1 ≠ none ↔
        p.DB = none ∨ ∃ db err, p.DB = some db ∧ (db.Has "test").2 = some err) ∧
      (∀ keys : List String, (verifyDatabase ⟨some ⟨keys, none⟩⟩).1 = none) ∧
      (∀ keys : List String, (verifyDatabase ⟨some ⟨"test" :: keys, none⟩⟩).1 = none) ∧
      (∀ keys : List String,
        (verifyDatabase ⟨some ⟨keys.filter (· ≠ "test"), none⟩⟩).1 = none) ∧
      lookups (verifyDatabase p).2.2 = (if p.DB = none then [] else ["test"]) ∧
      (verifyDatabase p).2.2 = (if p.DB = none then [] else [Effect.dbHas "test"]) ∧
      writes (verifyDatabase p).2.2 = [] ∧
      (verifyDatabase p).2.1 = p ∧
      (verifyDatabase p).1 =
        (match p.DB with
          | none => some (GoError.msg "database failed to initialize properly")
          | some db =>
            match (db.Has "test").2 with
            | some err => some (GoError.wrap "database access error: %w" err)
            | none => none) := by
  refine ⟨?_, ?_, ?_, ?_, ?_, ?_, ?_, ?_, ?_⟩
  · unfold verifyDatabase
    cases hdb : p.DB with
    | none => simp
    | some db => cases hh : (db.Has "test").2 <;> simp [hh]
  · intro keys; simp [verifyDatabase, LevelDB.Has]
  · intro keys; simp [verifyDatabase, LevelDB.Has]
  · intro keys; simp [verifyDatabase, LevelDB.Has]
  all_goals
    unfold verifyDatabase
    cases hdb : p.DB with
    | none => simp [lookups, writes]
    | some db => cases hh : (db.Has "test").2 <;> simp [hh, lookups, writes]

/-! ## Import -/

theorem getBaseDir_again (os : OsEnv) (st st1 : BaseDirState) (base : String)
    (h : getBaseDir os st = some (base, st1)) : getBaseDir os st1 = some (base, st1) := by
  unfold getBaseDir at h
  by_cases hd : st.onceDone = true
  · simp only [hd, if_true, Option.some.injEq, Prod.mk.injEq] at h
    obtain ⟨rfl, rfl⟩ := h
    simp [getBaseDir, hd]
  · by_cases he : os.euid = 0
    · simp [hd, he] at h
      obtain ⟨rfl, rfl⟩ := h
      simp [getBaseDir]
    · cases hh : os.UserHomeDir with
      | error e => simp [hd, he, hh] at h
      | ok home =>
        simp [hd, he, hh] at h
        obtain ⟨rfl, rfl⟩ := h
        simp [getBaseDir]

/-- C7: `handleImport` returns nil exactly when both the parser construction and
the import succeed.  The parser is constructed once, with `forceReparse = true`.
If the construction fails, `ImportAddressesFromFile` is not called and the
returned error wraps the construction error; otherwise it is called exactly once,
on `"./config/addresses.txt.gz"`, and its error, if any, is returned wrapped.
(When the base directory cannot be resolved, `getBaseDir` ends the process before
the parser is constructed.) -/
theorem C7_handleImport (deps : ImportDeps) (os : OsEnv) (st : BaseDirState) :
    (match getBaseDir os st with
      | none =>
        handleImport deps os st =
          (Outcome.exited, [Effect.logHeaderStatus LogLevel.LogInfo "Starting Address Import"])
      | some (base, _) =>
        parserCalls (handleImport deps os st).2 =
          [(deps.Join base ".bitcoin", deps.Join base deps.AddressDBPath, true)] ∧
        match deps.NewParser (deps.Join base ".bitcoin") (deps.Join base deps.AddressDBPath)
            true with
        | .error err =>
          (handleImport deps os st).1 = Outcome.returned
            (some (GoError.wrap "failed to initialize parser for import: %w" err)) ∧
          fileImports (handleImport deps os st).2 = []
        | .ok importParser =>
          fileImports (handleImport deps os st).2 = ["./config/addresses.txt.gz"] ∧
          (handleImport deps os st).1 = Outcome.returned
            (match deps.ImportAddressesFromFile importParser "./config/addresses.txt.gz" with
              | some err => some (GoError.wrap "failed to import addresses: %w" err)
              | none => none)) ∧
    ((handleImport deps os st).1 = Outcome.returned none ↔
      ∃ base st1 importParser,
        getBaseDir os st = some (base, st1) ∧
        deps.NewParser (deps.Join base ".bitcoin") (deps.Join base deps.AddressDBPath) true =
          .ok importParser ∧
        deps.ImportAddressesFromFile importParser "./config/addresses.txt.gz" = none) ∧
    (parserCalls (handleImport deps os st).2).all (fun c => c.2.2) = true ∧
    (parserCalls (handleImport deps os st).2).length ≤ 1 ∧
    (fileImports (handleImport deps os st).2).length ≤ 1 := by
  cases hb : getBaseDir os st with
  | none => simp [handleImport, hb, parserCalls, fileImports]
  | some r =>
    obtain ⟨base, st1⟩ := r
    have hb2 := getBaseDir_again os st st1 base hb
    cases hp : deps.NewParser (deps.Join base ".bitcoin") (deps.Join base deps.AddressDBPath)
        true with
    | error err => simp [handleImport, hb, hb2, hp, parserCalls, fileImports]
    | ok importParser =>
      cases hi : deps.ImportAddressesFromFile importParser "./config/addresses.txt.gz" <;>
        simp [handleImport, hb, hb2, hp, hi, parserCalls, fileImports]

end Grendel
